import Mathlib

/-!
Verification of the `genhcl` code-generation engine
(`src/generate/genhcl/genhcl.go` of the terramate repository).

The development shallowly embeds the generation pipeline: the per-block
evaluation state machine of `Load`, the partial-evaluation copier
(`copyBody` / `appendBlock`) and the dynamic block expander
(`appendDynamicBlocks` / `appendDynamicBlock` and their helpers
`getDynamicBlockAttrs` / `getContentBlock` / `setBodyAttributes`).

External collaborators (the expression evaluator `eval.Context`, the
`cty` value library, `lets.Load`, `config.EvalAssert`, glob matching,
`hclwrite` bodies and the formatter) are modelled at their interface
boundary, following the spec (sections 3 and 6) and the documented
semantics of the third-party libraries.

The mutually recursive tree-walking functions are embedded with an
explicit fuel argument (structural recursion on `Nat`); a result of
`none` means the fuel was exhausted, `some` carries the final state of
the shared evaluation context together with the Go function's result.
All theorems are stated so that they hold for every fuel value.
-/

/-- Model of `cty.Type` as far as the engine inspects it: the engine only
asks for `cty.Bool`, object/map-ness, and iterability.  `nilT` is the type
of `cty.NilValue` (the zero `cty.Value`). -/
inductive CtyTy where
  | boolT | strT | numT | objT | mapT | listT | tupleT | setT | nilT
deriving DecidableEq

/-- Model of `cty.Value` as far as the engine inspects it.  `nilV` is
`cty.NilValue`, the zero value of the Go type (used by the
`var foreach cty.Value` declaration in `appendDynamicBlocks`); `nullOf t`
is a typed null (`cty.NullVal(t)`).  Object and map values are both
modelled by `obj`; list/tuple/set values by `listV`. -/
inductive Value where
  | bool (b : Bool)
  | str (s : String)
  | num (n : Int)
  | nilV
  | nullOf (t : CtyTy)
  | obj (fields : List (String × Value))
  | listV (elems : List Value)

/-- `cty.Value.Type()`. -/
def Value.typeOf : Value → CtyTy
  | .bool _ => .boolT
  | .str _ => .strT
  | .num _ => .numT
  | .nilV => .nilT
  | .nullOf t => t
  | .obj _ => .objT
  | .listV _ => .listT

/-- `cty.Value.IsNull()`: true for typed nulls and for the zero value
`cty.NilValue`. -/
def Value.isNull : Value → Bool
  | .nilV => true
  | .nullOf _ => true
  | _ => false

/-- `cty.Type` iterability, as used by `cty.Value.CanIterateElements()`:
a purely type-based check, so nulls of collection type can iterate. -/
def CtyTy.canIterate : CtyTy → Bool
  | .objT | .mapT | .listT | .tupleT | .setT => true
  | _ => false

/-- `cty.Value.CanIterateElements()`: delegates to the value's type. -/
def Value.canIterate (v : Value) : Bool := v.typeOf.canIterate

/-- `cty.Value.True()`: the value equals `cty.True`. -/
def Value.isTrue : Value → Bool
  | .bool b => b
  | _ => false

/-- Kernel-reducible character-list lexicographic order (byte order on
ASCII), standing in for Go's `<` on strings. -/
def charListLt : List Char → List Char → Bool
  | [], [] => false
  | [], _ :: _ => true
  | _ :: _, [] => false
  | a :: as, b :: bs => if a < b then true else if b < a then false else charListLt as bs

/-- Lexicographic string order used for deterministic sorting. -/
def strLtB (a b : String) : Bool := charListLt a.toList b.toList

/-- Insertion step of the key-sorted iteration order of `cty` maps and
objects. -/
def insertField (p : String × Value) : List (String × Value) → List (String × Value)
  | [] => [p]
  | q :: r => if strLtB q.1 p.1 then q :: insertField p r else p :: q :: r

/-- `cty` iterates the entries of maps and objects sorted by key. -/
def sortFields (l : List (String × Value)) : List (String × Value) :=
  l.foldr insertField []

/-- `cty.Value.ElementIterator()` / `ForEachElement`: the key/value pairs
of a collection in its natural iteration order (maps and objects sorted
by key; sequences by index, the key being the index number). -/
def Value.elements : Value → List (Value × Value)
  | .obj fs => (sortFields fs).map (fun p => (Value.str p.1, p.2))
  | .listV es => es.enum.map (fun p => (Value.num (p.1 : Int), p.2))
  | _ => []

/-- The `errors.Kind` constants declared by the genhcl package (plus
`letsEval` / `assertEval` / `evalFail` standing for the kinds produced by
the external `lets`, `config` and `eval` collaborators). -/
inductive ErrKind where
  | parsing
  | contentEval
  | conditionEval
  | inheritEval
  | invalidConditionType
  | invalidInheritType
  | invalidDynamicIterator
  | invalidDynamicLabels
  | dynamicAttrsEval
  | dynamicConditionEval
  | dynamicAttrsConflict
  | letsEval
  | assertEval
  | evalFail
deriving DecidableEq

/-- One error value created by `errors.E`: the kind (if one was attached)
and the source range (if one was attached).  Messages are not modelled. -/
structure ErrItem where
  kind : Option ErrKind
  rng : Option Nat
deriving DecidableEq

/-- A Go error as the engine propagates it: `errors.L()` aggregates a
list of error values, a single `errors.E` is a one-element list, and
wrapping (`errors.E(kind, err, ...)`) prepends the wrapper item. -/
abbrev GoErr := List ErrItem

/-- `errors.E(kind, err)`: wrap an existing error with a kind. -/
def wrapErr (k : ErrKind) (e : GoErr) : GoErr := ⟨some k, none⟩ :: e

/-- `errors.E(kind, err, range)`: wrap an existing error with a kind and
a source range. -/
def wrapErrRng (k : ErrKind) (r : Nat) (e : GoErr) : GoErr := ⟨some k, some r⟩ :: e

mutual
/-- Modelled from the spec: the expression language of the external
evaluator (`eval.Context`, out of scope per spec section 1, interface in
section 6).  `lit` is `hclsyntax.LiteralValueExpr`; `varRef`/`nsAccess`
are traversals rooted at a namespace name; `objCons` is
`hclsyntax.ObjectConsExpr`; `failing` stands for any expression whose
(full or partial) evaluation fails for a reason other than an unknown
namespace.  Each constructor carries its source range. -/
inductive Expr where
  | lit (v : Value) (rng : Nat)
  | varRef (n : String) (rng : Nat)
  | nsAccess (ns field : String) (rng : Nat)
  | objCons (items : ObjItems) (rng : Nat)
  | failing (rng : Nat)
/-- The key/value item list of an `objCons` expression. -/
inductive ObjItems where
  | nil
  | cons (key val : Expr) (rest : ObjItems)
end

/-- `hclsyntax.Expression.Range()`. -/
def Expr.rng : Expr → Nat
  | .lit _ r => r
  | .varRef _ r => r
  | .nsAccess _ _ r => r
  | .objCons _ r => r
  | .failing r => r

/-- Modelled from the spec: the mutable binding environment of the
external evaluator (spec sections 3 and 6): named value namespaces
(`SetNamespace` / `DeleteNamespace`) and registered function names
(`SetFunction`).  `Copy()` is implicit in the pure embedding: passing
the value copies it. -/
structure EvalCtx where
  namespaces : List (String × List (String × Value))
  funcs : List String

/-- `eval.Context.SetNamespace`: bind (or overwrite) a namespace. -/
def EvalCtx.setNamespace (c : EvalCtx) (name : String) (binds : List (String × Value)) : EvalCtx :=
  { c with namespaces := (name, binds) :: c.namespaces.filter (fun p => p.1 ≠ name) }

/-- `eval.Context.DeleteNamespace`: remove a namespace if present. -/
def EvalCtx.deleteNamespace (c : EvalCtx) (name : String) : EvalCtx :=
  { c with namespaces := c.namespaces.filter (fun p => p.1 ≠ name) }

/-- Namespace lookup. -/
def EvalCtx.lookupNs (c : EvalCtx) (name : String) : Option (List (String × Value)) :=
  (c.namespaces.find? (fun p => p.1 = name)).map (·.2)

/-- `eval.Context.SetFunction`: register a function name. -/
def EvalCtx.setFunction (c : EvalCtx) (name : String) : EvalCtx :=
  { c with funcs := name :: c.funcs }

mutual
/-- Modelled from the spec: full evaluation `eval.Context.Eval` (spec
section 6): resolves bound namespaces to values and fails on unknown
identifiers and on failing expressions. -/
def evalE (ctx : EvalCtx) : Expr → Except GoErr Value
  | .lit v _ => .ok v
  | .varRef n r =>
    match ctx.lookupNs n with
    | some binds => .ok (.obj binds)
    | none => .error [⟨some .evalFail, some r⟩]
  | .nsAccess n f r =>
    match ctx.lookupNs n with
    | some binds =>
      match binds.find? (fun p => p.1 = f) with
      | some p => .ok p.2
      | none => .error [⟨some .evalFail, some r⟩]
    | none => .error [⟨some .evalFail, some r⟩]
  | .objCons items r =>
    match evalItems ctx items with
    | .ok fs => .ok (.obj fs)
    | .error e => .error (⟨some .evalFail, some r⟩ :: e)
  | .failing r => .error [⟨some .evalFail, some r⟩]

/-- Full evaluation of the items of an object constructor: keys must
evaluate to strings. -/
def evalItems (ctx : EvalCtx) : ObjItems → Except GoErr (List (String × Value))
  | .nil => .ok []
  | .cons k v rest =>
    match evalE ctx k with
    | .error e => .error e
    | .ok kv =>
      match kv with
      | .str s =>
        match evalE ctx v with
        | .error e => .error e
        | .ok vv =>
          match evalItems ctx rest with
          | .error e => .error e
          | .ok fs => .ok ((s, vv) :: fs)
      | _ => .error [⟨some .evalFail, some k.rng⟩]
end

/-- Modelled from the spec: `eval.Context.PartialEval` (spec section 6):
never fails on unknown namespaces (the expression is returned unchanged),
resolves references into bound namespaces, and fails on failing
expressions.  Object constructors are returned as object constructors
(their entries are partially evaluated one by one by the callers that
care, mirroring `appendDynamicBlock`). -/
def pEval (ctx : EvalCtx) : Expr → Except GoErr Expr
  | .lit v r => .ok (.lit v r)
  | .varRef n r =>
    match ctx.lookupNs n with
    | some binds => .ok (.lit (.obj binds) r)
    | none => .ok (.varRef n r)
  | .nsAccess n f r =>
    match ctx.lookupNs n with
    | some binds =>
      match binds.find? (fun p => p.1 = f) with
      | some p => .ok (.lit p.2 r)
      | none => .error [⟨some .evalFail, some r⟩]
    | none => .ok (.nsAccess n f r)
  | .objCons items r => .ok (.objCons items r)
  | .failing r => .error [⟨some .evalFail, some r⟩]

/-- `hcl.AbsTraversalForExpr`, restricted to the expression model: the
chain of identifiers of a pure traversal expression, if it is one. -/
def absTraversal : Expr → Option (List String)
  | .varRef n _ => some [n]
  | .nsAccess ns f _ => some [ns, f]
  | _ => none

/-- One `hclsyntax.Attribute`: name, expression, and the attribute's own
range (`Attribute.Range()`, distinct from `Expr.Range()`). -/
structure SrcAttribute where
  name : String
  expr : Expr
  rng : Nat

mutual
/-- An `hclsyntax.Body`: attributes (a name-keyed map, embedded as a
list), nested blocks, and `Body.Range()`. -/
inductive SrcBody where
  | mk (attributes : List SrcAttribute) (blocks : List SrcBlock) (rng : Nat)
/-- An `hclsyntax.Block`: type, labels, `LabelRanges`, `TypeRange` and
body. -/
inductive SrcBlock where
  | mk (btype : String) (labels : List String) (labelRng : Nat) (typeRng : Nat) (body : SrcBody)
end

def SrcBody.attributes : SrcBody → List SrcAttribute
  | .mk a _ _ => a

def SrcBody.blocks : SrcBody → List SrcBlock
  | .mk _ b _ => b

def SrcBody.rng : SrcBody → Nat
  | .mk _ _ r => r

def SrcBlock.btype : SrcBlock → String
  | .mk t _ _ _ _ => t

def SrcBlock.labels : SrcBlock → List String
  | .mk _ l _ _ _ => l

def SrcBlock.labelRng : SrcBlock → Nat
  | .mk _ _ r _ _ => r

def SrcBlock.typeRng : SrcBlock → Nat
  | .mk _ _ _ r _ => r

def SrcBlock.body : SrcBlock → SrcBody
  | .mk _ _ _ _ b => b

mutual
/-- An `hclwrite.Body` under construction: raw attributes (name and the
token stream written by `SetAttributeRaw`, a token stream being the
rendering of an expression or of a literal value) and appended blocks. -/
inductive OutBody where
  | mk (attrs : List (String × Expr)) (blocks : List OutBlock)
/-- An `hclwrite.Block`: type, labels and body. -/
inductive OutBlock where
  | mk (btype : String) (labels : List String) (body : OutBody)
end

def OutBody.attrs : OutBody → List (String × Expr)
  | .mk a _ => a

def OutBody.blocks : OutBody → List OutBlock
  | .mk _ b => b

/-- `hclwrite.NewEmptyFile().Body()`. -/
def emptyOutBody : OutBody := .mk [] []

/-- `hclwrite.Body.SetAttributeRaw`: overwrite the attribute if present,
else append it. -/
def OutBody.setAttributeRaw (b : OutBody) (name : String) (tokens : Expr) : OutBody :=
  if b.attrs.any (fun p => p.1 = name) then
    .mk (b.attrs.map (fun p => if p.1 = name then (name, tokens) else p)) b.blocks
  else
    .mk (b.attrs ++ [(name, tokens)]) b.blocks

/-- `hclwrite.Body.AppendBlock` / `AppendNewBlock`. -/
def OutBody.appendOut (b : OutBody) (blk : OutBlock) : OutBody :=
  .mk b.attrs (b.blocks ++ [blk])

/-- Modelled from the spec: a compiled glob (`glob.Glob`, produced by the
out-of-scope glob compiler); only its match predicate matters here. -/
inductive Glob where
  | exact (pat : String)
  | always
  | never

/-- Whether a compiled glob matches a path. -/
def Glob.matches : Glob → String → Bool
  | .exact pat, s => pat = s
  | .always, _ => true
  | .never, _ => false

/-- Modelled from the spec: `hcl.MatchAnyGlob` — true iff at least one
glob of the set matches the path. -/
def matchAnyGlob (globs : List Glob) (s : String) : Bool :=
  globs.any (fun g => g.matches s)

/-- One `hcl.StackFilterConfig`: two nilable glob-sets (project paths and
repository paths); `none` is a nil Go slice, which the matcher skips. -/
structure StackFilter where
  projectPaths : Option (List Glob)
  repositoryPaths : Option (List Glob)

/-- One glob-set constraint of the filter loop in `Load` (lines 215-224):
a nil set is skipped, a non-nil set must have a matching glob. -/
def globSetOk (og : Option (List Glob)) (dir : String) : Bool :=
  match og with
  | none => true
  | some globs => matchAnyGlob globs dir

/-- The per-filter conjunction of `Load` (lines 212-227): all named
glob-sets of the filter must accept the stack dir. -/
def filterMatches (f : StackFilter) (dir : String) : Bool :=
  globSetOk f.projectPaths dir && globSetOk f.repositoryPaths dir

/-- `matchedAnyStackFilter` of `Load` (lines 211-227): starts true for an
empty filter list and becomes true if any filter matches. -/
def matchedAnyStackFilter (fs : List StackFilter) (dir : String) : Bool :=
  fs.isEmpty || fs.any (fun f => filterMatches f dir)

/-- Insertion step for `ast.SortRawAttributes`. -/
def insertAttr (a : SrcAttribute) : List SrcAttribute → List SrcAttribute
  | [] => [a]
  | b :: r => if strLtB b.name a.name then b :: insertAttr a r else a :: b :: r

/-- Modelled from the spec: `ast.SortRawAttributes` — the attributes of a
body in a stable, name-sorted order (spec section 4.4). -/
def sortRawAttributes (l : List SrcAttribute) : List SrcAttribute := l.foldr insertAttr []

/-- Modelled from the spec: `hcl.ValueAsStringList` — the value must be a
sequence of strings. -/
def valueAsStringList : Value → Except GoErr (List String)
  | .listV es =>
    let rec toStrs : List Value → Except GoErr (List String)
      | [] => .ok []
      | .str s :: r =>
        match toStrs r with
        | .ok l => .ok (s :: l)
        | .error e => .error e
      | _ => .error [⟨none, none⟩]
    toStrs es
  | _ => .error [⟨none, none⟩]

/-- `hclsyntax.ValidIdentifier`, ASCII fragment: nonempty, starts with a
letter or underscore, continues with letters, digits, `-` or `_`. -/
def validIdentifier (s : String) : Bool :=
  match s.toList with
  | [] => false
  | c :: r => (c.isAlpha || c = '_') && r.all (fun d => d.isAlphanum || d = '-' || d = '_')

/-- The `dynBlockAttributes` struct: the recognized control attributes of
a `tm_dynamic` meta-block. -/
structure DynAttrs where
  attributes : Option SrcAttribute
  iterator : Option SrcAttribute
  foreach : Option SrcAttribute
  labels : Option SrcAttribute
  condition : Option SrcAttribute

/-- The empty `dynBlockAttributes{}`. -/
def DynAttrs.empty : DynAttrs := ⟨none, none, none, none, none⟩

/-- One step of the attribute classification loop of
`getDynamicBlockAttrs` (lines 707-729): recognized names fill the
corresponding field, any other name appends an `ErrParsing` error at the
attribute's expression range. -/
def dynAttrStep (acc : DynAttrs × GoErr) (a : SrcAttribute) : DynAttrs × GoErr :=
  if a.name = "attributes" then ({ acc.1 with attributes := some a }, acc.2)
  else if a.name = "for_each" then ({ acc.1 with foreach := some a }, acc.2)
  else if a.name = "labels" then ({ acc.1 with labels := some a }, acc.2)
  else if a.name = "iterator" then ({ acc.1 with iterator := some a }, acc.2)
  else if a.name = "condition" then ({ acc.1 with condition := some a }, acc.2)
  else (acc.1, acc.2 ++ [⟨some .parsing, some a.expr.rng⟩])

/-- `getDynamicBlockAttrs` (lines 703-734): classify the meta-block's
attributes, accumulating an error per unsupported name; the partially
filled struct is returned even when errors occurred. -/
def getDynamicBlockAttrs (db : SrcBlock) : DynAttrs × GoErr :=
  db.body.attributes.foldl dynAttrStep (DynAttrs.empty, [])

/-- The scan of `getContentBlock` (lines 741-757): non-`content` blocks
and duplicate `content` blocks each append an `ErrParsing` error at the
block's type range; the first `content` block is kept. -/
def getContentBlockAux (found : Option SrcBlock) (errs : GoErr) :
    List SrcBlock → Option SrcBlock × GoErr
  | [] => (found, errs)
  | b :: rest =>
    if b.btype ≠ "content" then
      getContentBlockAux found (errs ++ [⟨some .parsing, some b.typeRng⟩]) rest
    else
      match found with
      | some _ => getContentBlockAux found (errs ++ [⟨some .parsing, some b.typeRng⟩]) rest
      | none => getContentBlockAux (some b) errs rest

/-- `getContentBlock` (lines 736-764): on any error the block result is
nil. -/
def getContentBlock (blocks : List SrcBlock) : Option SrcBlock × GoErr :=
  let (cb, errs) := getContentBlockAux none [] blocks
  if errs = [] then (cb, []) else (none, errs)

/-- The `tmAttribute` struct: a generated attribute name, its token
stream and the range used for diagnostics. -/
structure TmAttribute where
  name : String
  tokens : Expr
  info : Nat

/-- `setBodyAttributes` (lines 588-598): write each generated attribute,
failing at the first name that is not a valid identifier. -/
def setBodyAttributes (body : OutBody) : List TmAttribute → Except GoErr OutBody
  | [] => .ok body
  | a :: rest =>
    if validIdentifier a.name then
      setBodyAttributes (body.setAttributeRaw a.name a.tokens) rest
    else
      .error [⟨some .parsing, some a.info⟩]

/-- The `tm_dynamic.labels` resolution of `appendDynamicBlock`
(lines 466-481): absent means no labels; present must fully evaluate to
a string list. -/
def evalDynLabels (ctx : EvalCtx) (oattr : Option SrcAttribute) : Except GoErr (List String) :=
  match oattr with
  | none => .ok []
  | some a =>
    match evalE ctx a.expr with
    | .error e => .error (wrapErrRng .invalidDynamicLabels a.rng e)
    | .ok v =>
      match valueAsStringList v with
      | .error e => .error (wrapErrRng .invalidDynamicLabels a.rng e)
      | .ok labels => .ok labels

/-- The item scan of the `ObjectConsExpr` case of `appendDynamicBlock`
(lines 516-545): each key fully evaluates to a string, each value is
partially evaluated and rendered to tokens. -/
def buildConsAttrs (ctx : EvalCtx) : ObjItems → Except GoErr (List TmAttribute)
  | .nil => .ok []
  | .cons kexpr vexpr rest =>
    match evalE ctx kexpr with
    | .error e => .error (wrapErrRng .dynamicAttrsEval kexpr.rng e)
    | .ok kv =>
      match kv with
      | .str s =>
        match pEval ctx vexpr with
        | .error _ => .error [⟨some .dynamicAttrsEval, some vexpr.rng⟩]
        | .ok ve =>
          match buildConsAttrs ctx rest with
          | .error e => .error e
          | .ok l => .ok (⟨s, ve, vexpr.rng⟩ :: l)
      | _ => .error [⟨some .parsing, some kexpr.rng⟩]

/-- The `tm_dynamic.attributes` resolution of `appendDynamicBlock`
(lines 485-560): partially evaluate the attribute map expression; a
literal must be a non-null object/map whose entries become value tokens;
an object constructor is resolved per item; anything else is a parse
error. -/
def buildTmAttrs (ctx : EvalCtx) (oattr : Option SrcAttribute) : Except GoErr (List TmAttribute) :=
  match oattr with
  | none => .ok []
  | some a =>
    match pEval ctx a.expr with
    | .error e => .error (wrapErrRng .dynamicAttrsEval a.rng e)
    | .ok ae =>
      match ae with
      | .lit v r =>
        if v.isNull then .error [⟨some .parsing, some r⟩]
        else if v.typeOf = .objT then
          .ok ((sortFields (match v with | .obj fs => fs | _ => [])).map
            (fun p => ⟨p.1, .lit p.2 r, r⟩))
        else .error [⟨some .parsing, some a.expr.rng⟩]
      | .objCons items _ => buildConsAttrs ctx items
      | _ => .error [⟨some .parsing, some a.expr.rng⟩]

/-- Outcome of the control phase of `appendDynamicBlocks` (lines
600-680), before any destination block is produced: aggregated
validation failure, suppression by a false `condition`, the single
non-iterating expansion (absent or null `for_each`), or an iteration
with the resolved loop-variable name and the collection's elements. -/
inductive DynPrep where
  | failed (e : GoErr)
  | suppressed
  | single (genType : String) (da : DynAttrs) (cb : Option SrcBlock)
  | iterate (genType : String) (iter : String) (elems : List (Value × Value))
      (da : DynAttrs) (cb : Option SrcBlock)

/-- The null-`for_each` path (lines 653-663): an `iterator` attribute is
fatal, otherwise a single expansion is prepared. -/
def prepareNull (da : DynAttrs) (cb : Option SrcBlock) (gt : String) : DynPrep :=
  match da.iterator with
  | some ia => .failed [⟨some .invalidDynamicIterator, some ia.rng⟩]
  | none => .single gt da cb

/-- The `for_each` / `iterator` resolution of `appendDynamicBlocks`
(lines 637-680): evaluate `for_each` if present (it must be iterable);
a null collection (including the absent case, whose zero `cty.Value` is
null) takes the single-expansion path; otherwise the loop-variable name
defaults to the generated type and may be overridden by a
single-identifier `iterator`. -/
def prepareForeach (ctx : EvalCtx) (da : DynAttrs) (cb : Option SrcBlock) (gt : String) :
    DynPrep :=
  match da.foreach with
  | none => prepareNull da cb gt
  | some fa =>
    match evalE ctx fa.expr with
    | .error e => .failed (wrapErrRng .parsing fa.expr.rng e)
    | .ok v =>
      if !v.canIterate then .failed [⟨some .parsing, some fa.expr.rng⟩]
      else if v.isNull then prepareNull da cb gt
      else
        match da.iterator with
        | none => .iterate gt gt v.elements da cb
        | some ia =>
          match absTraversal ia.expr with
          | some [n] => .iterate gt n v.elements da cb
          | _ => .failed [⟨some .invalidDynamicIterator, some ia.rng⟩]

/-- The aggregated structural validation of `appendDynamicBlocks`
(lines 601-619): label-count error, unsupported-attribute errors,
content-block errors, and the missing `content`/`attributes` error are
collected into one error list. -/
def dynValidationErrs (db : SrcBlock) : GoErr :=
  (if db.labels.length ≠ 1 then [⟨some .parsing, some db.labelRng⟩] else [])
    ++ (getDynamicBlockAttrs db).2
    ++ (getContentBlock db.body.blocks).2
    ++ (if ((getContentBlock db.body.blocks).1.isNone
            && (getDynamicBlockAttrs db).1.attributes.isNone) then
          [⟨some .parsing, some db.body.rng⟩]
        else [])

/-- The whole control phase of `appendDynamicBlocks` (lines 600-680):
validation (aggregated, reported together), then `condition` (fail-fast:
evaluation error or non-boolean is fatal, false suppresses), then the
`for_each` / `iterator` resolution. -/
def prepareDynamic (db : SrcBlock) (ctx : EvalCtx) : DynPrep :=
  if dynValidationErrs db ≠ [] then .failed (dynValidationErrs db)
  else
    let da := (getDynamicBlockAttrs db).1
    let cb := (getContentBlock db.body.blocks).1
    let gt := db.labels.headD ""
    match da.condition with
    | some ca =>
      match evalE ctx ca.expr with
      | .error e => .failed (wrapErr .dynamicConditionEval e)
      | .ok cv =>
        if cv.typeOf ≠ .boolT then .failed [⟨some .dynamicConditionEval, none⟩]
        else if !cv.isTrue then .suppressed
        else prepareForeach ctx da cb gt
    | none => prepareForeach ctx da cb gt

/-- The attribute loop of `copyBody` (lines 418-432): for each attribute
in sorted order, partially evaluate the cloned expression (an error is
wrapped with the expression's range) and write the resulting tokens. -/
def copyAttributes (dest : OutBody) (ctx : EvalCtx) : List SrcAttribute → Except GoErr OutBody
  | [] => .ok dest
  | a :: rest =>
    match pEval ctx a.expr with
    | .error e => .error (⟨none, some a.expr.rng⟩ :: e)
    | .ok ne => copyAttributes (dest.setAttributeRaw a.name ne) ctx rest

mutual
/-- `copyBody` (lines 417-442): write the source body's attributes in
sorted order (partially evaluated), then append its blocks in order. -/
def copyBody : Nat → OutBody → SrcBody → EvalCtx → Option (EvalCtx × Except GoErr OutBody)
  | 0, _, _, _ => none
  | fuel+1, dest, src, ctx =>
    match copyAttributes dest ctx (sortRawAttributes src.attributes) with
    | .error e => some (ctx, .error e)
    | .ok dest2 => copyBlocks fuel dest2 src.blocks ctx

/-- The block loop of `copyBody` (lines 434-439): stop at the first
failing block. -/
def copyBlocks : Nat → OutBody → List SrcBlock → EvalCtx → Option (EvalCtx × Except GoErr OutBody)
  | 0, _, _, _ => none
  | _+1, dest, [], ctx => some (ctx, .ok dest)
  | fuel+1, dest, b :: rest, ctx =>
    match appendBlock fuel dest b ctx with
    | none => none
    | some (ctx2, .error e) => some (ctx2, .error e)
    | some (ctx2, .ok dest2) => copyBlocks fuel dest2 rest ctx2

/-- `appendBlock` (lines 444-457): a `tm_dynamic` block is handed to the
expander; any other block is copied structurally, recursing into its
body. -/
def appendBlock : Nat → OutBody → SrcBlock → EvalCtx → Option (EvalCtx × Except GoErr OutBody)
  | 0, _, _, _ => none
  | fuel+1, target, block, ctx =>
    if block.btype = "tm_dynamic" then
      appendDynamicBlocks fuel target block ctx
    else
      match copyBody fuel emptyOutBody block.body ctx with
      | none => none
      | some (ctx2, .error e) => some (ctx2, .error e)
      | some (ctx2, .ok newBody) =>
        some (ctx2, .ok (target.appendOut (.mk block.btype block.labels newBody)))

/-- `appendDynamicBlocks` (lines 600-701): run the control phase; on an
iteration, bind the loop variable per element, expand, stop early on
error, and always delete the loop-variable namespace afterwards. -/
def appendDynamicBlocks : Nat → OutBody → SrcBlock → EvalCtx →
    Option (EvalCtx × Except GoErr OutBody)
  | 0, _, _, _ => none
  | fuel+1, target, db, ctx =>
    match prepareDynamic db ctx with
    | .failed e => some (ctx, .error e)
    | .suppressed => some (ctx, .ok target)
    | .single gt da cb => appendDynamicBlock fuel target ctx gt da cb
    | .iterate gt iter elems da cb =>
      match dynLoop fuel gt iter da cb target ctx elems with
      | none => none
      | some (ctx2, res) => some (ctx2.deleteNamespace iter, res)

/-- The `ForEachElement` loop of `appendDynamicBlocks` (lines 684-697):
for each key/value pair in order, bind the two-field `{key, value}`
structure under the loop-variable name and perform one expansion,
stopping at (and keeping) the first error. -/
def dynLoop : Nat → String → String → DynAttrs → Option SrcBlock → OutBody → EvalCtx →
    List (Value × Value) → Option (EvalCtx × Except GoErr OutBody)
  | 0, _, _, _, _, _, _, _ => none
  | _+1, _, _, _, _, target, ctx, [] => some (ctx, .ok target)
  | fuel+1, gt, iter, da, cb, target, ctx, e :: rest =>
    match appendDynamicBlock fuel target
        (ctx.setNamespace iter [("key", e.1), ("value", e.2)]) gt da cb with
    | none => none
    | some (ctx2, .error err) => some (ctx2, .error err)
    | some (ctx2, .ok target2) => dynLoop fuel gt iter da cb target2 ctx2 rest

/-- The block-building part of `appendDynamicBlock` (lines 466-577):
resolve the labels, build the generated attributes, write them (names
must be valid identifiers), then — after rejecting any top-level content
attribute whose name was already set from `attributes` — copy the
content body into the same block.  Go appends the new block to the
destination first and then builds it in place; since any failure aborts
the whole run (every caller discards the destination on error), the
embedding builds the block first and `appendDynamicBlock` appends it on
success. -/
def expandDynBlock : Nat → EvalCtx → String → DynAttrs → Option SrcBlock →
    Option (EvalCtx × Except GoErr OutBlock)
  | 0, _, _, _, _ => none
  | fuel+1, ctx, genBlockType, da, contentBlock =>
    match evalDynLabels ctx da.labels with
    | .error e => some (ctx, .error e)
    | .ok labels =>
      match buildTmAttrs ctx da.attributes with
      | .error e => some (ctx, .error e)
      | .ok tmAttrs =>
        match setBodyAttributes emptyOutBody tmAttrs with
        | .error e => some (ctx, .error e)
        | .ok newBody =>
          let attributeNames := tmAttrs.map (·.name)
          match contentBlock with
          | none => some (ctx, .ok (.mk genBlockType labels newBody))
          | some cb =>
            match cb.body.attributes.find? (fun a => attributeNames.contains a.name) with
            | some a => some (ctx, .error [⟨some .dynamicAttrsConflict, some a.rng⟩])
            | none =>
              match copyBody fuel newBody cb.body ctx with
              | none => none
              | some (ctx2, .error e) => some (ctx2, .error e)
              | some (ctx2, .ok newBody2) =>
                some (ctx2, .ok (.mk genBlockType labels newBody2))

/-- `appendDynamicBlock` (lines 459-580): one expansion — build the
generated block and append it to the destination body. -/
def appendDynamicBlock : Nat → OutBody → EvalCtx → String → DynAttrs → Option SrcBlock →
    Option (EvalCtx × Except GoErr OutBody)
  | 0, _, _, _, _, _ => none
  | fuel+1, destination, ctx, genBlockType, da, contentBlock =>
    match expandDynBlock fuel ctx genBlockType da contentBlock with
    | none => none
    | some (c2, .error e) => some (c2, .error e)
    | some (c2, .ok blk) => some (c2, .ok (destination.appendOut blk))
end

/-- The two supported magic-header comment styles. -/
inductive CommentStyle where
  | slash
  | hash
deriving DecidableEq

/-- `config.Assert`: an evaluated assertion. -/
structure Assert where
  assertion : Bool
  warning : Bool
  message : String
deriving DecidableEq

/-- The zero Go value of `config.Assert`, left in the result slice for an
assertion whose evaluation failed. -/
def defaultAssert : Assert := ⟨false, false, ""⟩

/-- A declared (unevaluated) assert block: `assertion` and `message`
expressions, plus an optional `warning` expression. -/
structure AssertConfig where
  assertion : Expr
  message : Expr
  warning : Option Expr

/-- Modelled from the spec: `config.EvalAssert` (spec section 3,
"Assertion — evaluated (assertion: bool, warning: bool, message:
string)"): each field fully evaluates to its expected type, any failure
or type mismatch is an error. -/
def evalAssert (ctx : EvalCtx) (cfg : AssertConfig) : Except GoErr Assert :=
  match evalE ctx cfg.assertion with
  | .error e => .error (wrapErr .assertEval e)
  | .ok av =>
    match av with
    | .bool ab =>
      match evalE ctx cfg.message with
      | .error e => .error (wrapErr .assertEval e)
      | .ok mv =>
        match mv with
        | .str ms =>
          match cfg.warning with
          | none => .ok ⟨ab, false, ms⟩
          | some w =>
            match evalE ctx w with
            | .error e => .error (wrapErr .assertEval e)
            | .ok wv =>
              match wv with
              | .bool wb => .ok ⟨ab, wb, ms⟩
              | _ => .error [⟨some .assertEval, none⟩]
        | _ => .error [⟨some .assertEval, none⟩]
    | _ => .error [⟨some .assertEval, none⟩]

/-- Modelled from the spec: `lets.Load` (spec section 4.3 step 2) —
evaluate each declared local variable in order into the `let` namespace
of the context; the first failure is fatal with the lets kind. -/
def letsLoad (ctx : EvalCtx) : List (String × Expr) → Except GoErr EvalCtx
  | [] => .ok ctx
  | (n, e) :: rest =>
    match evalE ctx e with
    | .error err => .error (wrapErr .letsEval err)
    | .ok v =>
      letsLoad (ctx.setNamespace "let" (((ctx.lookupNs "let").getD []) ++ [(n, v)])) rest

/-- The assertion loop of `Load` (lines 304-318): evaluate every declared
assertion, collecting (not short-circuiting) the evaluation errors, the
evaluated asserts (an errored slot keeps the zero value), and whether
some successfully evaluated assertion is both non-passing and
non-warning. -/
def assertsStage (ctx : EvalCtx) : List AssertConfig → List Assert × GoErr × Bool
  | [] => ([], [], false)
  | c :: rest =>
    match evalAssert ctx c with
    | .error e =>
      let (as, es, f) := assertsStage ctx rest
      (defaultAssert :: as, e ++ es, f)
    | .ok a =>
      let (as, es, f) := assertsStage ctx rest
      (a :: as, es, f || (!a.assertion && !a.warning))

/-- One `hcl.GenHCLBlock` as `Load` consumes it: label, declaring
directory, origin range, scope filters, lets, optional `condition` and
`inherit` expressions, assert declarations, the `content` body, and the
implicit-origin flag (which only affects diagnostic messages, not
modelled further). -/
structure GenHCLBlock where
  label : String
  dir : String
  range : Nat
  stackFilters : List StackFilter
  lets : List (String × Expr)
  condition : Option Expr
  inherit : Option Expr
  asserts : List AssertConfig
  content : SrcBody
  isImplicitBlock : Bool

/-- The generated `HCL` artifact: comment style, label, origin,
generated body (kept as the destination tree; final text formatting is
the out-of-scope formatter), evaluated condition, evaluated asserts. -/
structure HCL where
  magicCommentStyle : CommentStyle
  label : String
  origin : Nat
  body : OutBody
  condition : Bool
  asserts : List Assert

/-- The body of `Load`'s per-block loop (lines 208-360): filter match →
vendor function registration → lets → condition → inherit gate →
assertions → content evaluation.  `.ok none` is the silent skip of a
non-inheritable block; a `none` result is exhausted fuel. -/
def loadBlock (fuel : Nat) (blk : GenHCLBlock) (stackDir : String) (evalctx : EvalCtx)
    (commentStyle : CommentStyle) : Option (Except GoErr (Option HCL)) :=
  let name := blk.label
  if !matchedAnyStackFilter blk.stackFilters stackDir then
    some (.ok (some ⟨commentStyle, name, blk.range, emptyOutBody, false, []⟩))
  else
    let ctx1 := evalctx.setFunction "tm_vendor"
    match letsLoad ctx1 blk.lets with
    | .error e => some (.error e)
    | .ok ctx2 =>
      let condRes : Except GoErr Bool :=
        match blk.condition with
        | none => .ok true
        | some ce =>
          match evalE ctx2 ce with
          | .error e => .error (wrapErr .conditionEval e)
          | .ok v =>
            if v.typeOf ≠ .boolT then .error [⟨some .invalidConditionType, none⟩]
            else .ok v.isTrue
      match condRes with
      | .error e => some (.error e)
      | .ok condition =>
        if !condition then
          some (.ok (some ⟨commentStyle, name, blk.range, emptyOutBody, condition, []⟩))
        else
          let inhRes : Except GoErr Bool :=
            match blk.inherit with
            | none => .ok true
            | some ie =>
              match evalE ctx2 ie with
              | .error e => .error (wrapErr .inheritEval e)
              | .ok v =>
                if v.typeOf ≠ .boolT then .error [⟨some .invalidInheritType, none⟩]
                else .ok v.isTrue
          match inhRes with
          | .error e => some (.error e)
          | .ok inherit =>
            if !inherit && blk.dir ≠ stackDir then
              some (.ok none)
            else
              match assertsStage ctx2 blk.asserts with
              | (asserts, assertsErrs, assertFailed) =>
                if assertsErrs ≠ [] then some (.error assertsErrs)
                else if assertFailed then
                  some (.ok (some ⟨commentStyle, name, blk.range, emptyOutBody, condition, asserts⟩))
                else
                  let ctx3 := ctx2.setFunction "tm_hcl_expression"
                  match copyBody fuel emptyOutBody blk.content ctx3 with
                  | none => none
                  | some (_, .error e) => some (.error (wrapErr .contentEval e))
                  | some (_, .ok gen) =>
                    some (.ok (some ⟨commentStyle, name, blk.range, gen, condition, asserts⟩))

/-- The block loop of `Load` (lines 208-360) over the already-discovered
block list: any fatal error aborts the whole run; skipped blocks emit
nothing; artifacts are collected in block order. -/
def loadAll (fuel : Nat) (stackDir : String) (evalctx : EvalCtx) (commentStyle : CommentStyle) :
    List GenHCLBlock → Option (Except GoErr (List HCL))
  | [] => some (.ok [])
  | blk :: rest =>
    match loadBlock fuel blk stackDir evalctx commentStyle with
    | none => none
    | some (.error e) => some (.error e)
    | some (.ok none) => loadAll fuel stackDir evalctx commentStyle rest
    | some (.ok (some h)) =>
      match loadAll fuel stackDir evalctx commentStyle rest with
      | none => none
      | some (.error e) => some (.error e)
      | some (.ok hs) => some (.ok (h :: hs))

/-- Insertion step of the stable label sort. -/
def insertHCL (h : HCL) : List HCL → List HCL
  | [] => [h]
  | g :: r => if strLtB g.label h.label then g :: insertHCL h r else h :: g :: r

/-- `sort.SliceStable` by label ascending (line 362). -/
def sortHCLs (l : List HCL) : List HCL := l.foldr insertHCL []

/-- `Load` (lines 193-367) over an already-discovered block list (the
hierarchical discovery `loadGenHCLBlocks` reads configuration through
the out-of-scope `config.Root` accessor; its nearest-first result is the
input list here): process every block and return the artifacts sorted by
label, or the first fatal error. -/
def Load (fuel : Nat) (hclBlocks : List GenHCLBlock) (stackDir : String) (evalctx : EvalCtx)
    (commentStyle : CommentStyle) : Option (Except GoErr (List HCL)) :=
  match loadAll fuel stackDir evalctx commentStyle hclBlocks with
  | none => none
  | some (.error e) => some (.error e)
  | some (.ok hs) => some (.ok (sortHCLs hs))

@[simp]
theorem OutBody.appendOut_attrs (b : OutBody) (blk : OutBlock) :
    (b.appendOut blk).attrs = b.attrs := rfl

@[simp]
theorem OutBody.appendOut_blocks (b : OutBody) (blk : OutBlock) :
    (b.appendOut blk).blocks = b.blocks ++ [blk] := rfl

theorem find?_filter_ne {α : Type} (l : List (String × α)) (n : String) :
    (l.filter (fun p => p.1 ≠ n)).find? (fun p => p.1 = n) = none := by
  induction l with
  | nil => rfl
  | cons a t ih =>
    by_cases h : a.1 = n <;> simp [List.filter_cons, h, List.find?_cons, ih]

/-- Deleting a namespace makes it unbound. -/
theorem lookupNs_deleteNamespace (c : EvalCtx) (n : String) :
    (c.deleteNamespace n).lookupNs n = none := by
  unfold EvalCtx.deleteNamespace EvalCtx.lookupNs
  simp [find?_filter_ne]

/-- A successful single expansion appends exactly the block built by
`expandDynBlock` to the destination and touches nothing else in it. -/
theorem appendDynamicBlock_ok_append {f : Nat} {dest : OutBody} {c : EvalCtx} {gt : String}
    {da : DynAttrs} {cb : Option SrcBlock} {c2 : EvalCtx} {d2 : OutBody}
    (h : appendDynamicBlock f dest c gt da cb = some (c2, .ok d2)) :
    ∃ g b, expandDynBlock g c gt da cb = some (c2, .ok b) ∧ d2 = dest.appendOut b := by
  match f with
  | 0 => simp [appendDynamicBlock] at h
  | f+1 =>
    unfold appendDynamicBlock at h
    repeat' split at h
    all_goals simp_all
    all_goals exact ⟨f, _, by assumption, h.2.symm⟩

/-- Default element for indexed access into an element list. -/
def dV : Value × Value := (Value.nilV, Value.nilV)

/-- Default block for indexed access into a block list. -/
def dB : OutBlock := .mk "" [] emptyOutBody

/-- A failing single expansion propagates exactly the block builder's
error. -/
theorem appendDynamicBlock_error_eq {f : Nat} {dest : OutBody} {c : EvalCtx} {gt : String}
    {da : DynAttrs} {cb : Option SrcBlock} {c2 : EvalCtx} {e : GoErr}
    (h : appendDynamicBlock f dest c gt da cb = some (c2, .error e)) :
    ∃ g, expandDynBlock g c gt da cb = some (c2, .error e) := by
  match f with
  | 0 => simp [appendDynamicBlock] at h
  | f+1 =>
    unfold appendDynamicBlock at h
    repeat' split at h
    all_goals simp_all
    exact ⟨f, by assumption⟩

/-- A successful iteration appends one block per element, in order; the
i-th appended block is the one built by a single expansion under the
context that binds the i-th key/value pair to the loop variable. -/
theorem dynLoop_ok_spec {gt iter : String} {da : DynAttrs} {cb : Option SrcBlock} :
    ∀ (elems : List (Value × Value)) (f : Nat) (target : OutBody) (ctx c2 : EvalCtx)
      (b2 : OutBody),
    dynLoop f gt iter da cb target ctx elems = some (c2, .ok b2) →
    ∃ bs : List OutBlock,
      b2.attrs = target.attrs ∧ b2.blocks = target.blocks ++ bs ∧
      bs.length = elems.length ∧
      ∀ i, i < elems.length →
        ∃ (g : Nat) (c1 cx : EvalCtx), expandDynBlock g
            (c1.setNamespace iter
              [("key", (elems.getD i dV).1), ("value", (elems.getD i dV).2)]) gt da cb
          = some (cx, .ok (bs.getD i dB)) := by
  intro elems
  induction elems with
  | nil =>
    intro f target ctx c2 b2 h
    match f with
    | 0 => simp [dynLoop] at h
    | f+1 =>
      simp [dynLoop] at h
      refine ⟨[], ?_, ?_, rfl, ?_⟩
      · rw [← h.2]
      · rw [← h.2]; simp
      · intro i hi; simp at hi
  | cons e rest ih =>
    intro f target ctx c2 b2 h
    match f with
    | 0 => simp [dynLoop] at h
    | f+1 =>
      unfold dynLoop at h
      cases hA : appendDynamicBlock f target
          (ctx.setNamespace iter [("key", e.1), ("value", e.2)]) gt da cb with
      | none => rw [hA] at h; simp at h
      | some pr =>
        rw [hA] at h
        obtain ⟨cx, res⟩ := pr
        cases res with
        | error err => simp at h
        | ok t2 =>
          simp only [] at h
          obtain ⟨g, blk, hE, ht2⟩ := appendDynamicBlock_ok_append hA
          obtain ⟨bs, hattrs, hblocks, hlen, hsteps⟩ := ih f t2 cx c2 b2 h
          refine ⟨blk :: bs, ?_, ?_, ?_, ?_⟩
          · rw [hattrs, ht2]; simp
          · rw [hblocks, ht2]; simp
          · simp [hlen]
          · intro i hi
            cases i with
            | zero => exact ⟨g, ctx, cx, by simpa using hE⟩
            | succ j =>
              obtain ⟨g2, c1, cx2, hs⟩ := hsteps j (by simpa using hi)
              exact ⟨g2, c1, cx2, by simpa using hs⟩

/-- A failing iteration stops at a failing expansion: some element index
failed with exactly the propagated error, and every earlier element's
expansion succeeded. -/
theorem dynLoop_error_spec {gt iter : String} {da : DynAttrs} {cb : Option SrcBlock} :
    ∀ (elems : List (Value × Value)) (f : Nat) (target : OutBody) (ctx c2 : EvalCtx)
      (err : GoErr),
    dynLoop f gt iter da cb target ctx elems = some (c2, .error err) →
    ∃ i, i < elems.length ∧
      (∃ (g : Nat) (c1 : EvalCtx), expandDynBlock g
          (c1.setNamespace iter
            [("key", (elems.getD i dV).1), ("value", (elems.getD i dV).2)]) gt da cb
        = some (c2, .error err)) ∧
      ∀ j, j < i → ∃ (g : Nat) (c1 cx : EvalCtx) (b : OutBlock), expandDynBlock g
          (c1.setNamespace iter
            [("key", (elems.getD j dV).1), ("value", (elems.getD j dV).2)]) gt da cb
        = some (cx, .ok b) := by
  intro elems
  induction elems with
  | nil =>
    intro f target ctx c2 err h
    match f with
    | 0 => simp [dynLoop] at h
    | f+1 => simp [dynLoop] at h
  | cons e rest ih =>
    intro f target ctx c2 err h
    match f with
    | 0 => simp [dynLoop] at h
    | f+1 =>
      unfold dynLoop at h
      cases hA : appendDynamicBlock f target
          (ctx.setNamespace iter [("key", e.1), ("value", e.2)]) gt da cb with
      | none => rw [hA] at h; simp at h
      | some pr =>
        rw [hA] at h
        obtain ⟨cx, res⟩ := pr
        cases res with
        | error e2 =>
          simp only [] at h
          obtain ⟨h1, h2⟩ := by simpa using h
          subst h1; subst h2
          obtain ⟨g, hE⟩ := appendDynamicBlock_error_eq hA
          refine ⟨0, by simp, ⟨g, ctx, by simpa using hE⟩, ?_⟩
          intro j hj; omega
        | ok t2 =>
          simp only [] at h
          obtain ⟨g, blk, hE, _⟩ := appendDynamicBlock_ok_append hA
          obtain ⟨i, hi, hfail, hpre⟩ := ih f t2 cx c2 err h
          refine ⟨i + 1, by simpa using hi, ?_, ?_⟩
          · obtain ⟨g2, c1, hs⟩ := hfail
            exact ⟨g2, c1, by simpa using hs⟩
          · intro j hj
            cases j with
            | zero => exact ⟨g, ctx, cx, blk, by simpa using hE⟩
            | succ k =>
              obtain ⟨g2, c1, cx2, b, hs⟩ := hpre k (by omega)
              exact ⟨g2, c1, cx2, b, by simpa using hs⟩

/-- Dispatch of `appendDynamicBlocks` on an `iterate` control outcome. -/
theorem appendDynamicBlocks_iterate {F : Nat} {target : OutBody} {db : SrcBlock}
    {ctx : EvalCtx} {gt iter : String} {elems : List (Value × Value)} {da : DynAttrs}
    {cb : Option SrcBlock}
    (hprep : prepareDynamic db ctx = .iterate gt iter elems da cb) :
    appendDynamicBlocks (F+1) target db ctx =
      match dynLoop F gt iter da cb target ctx elems with
      | none => none
      | some (c2, res) => some (c2.deleteNamespace iter, res) := by
  unfold appendDynamicBlocks
  rw [hprep]

/-- C1: for a tm_dynamic meta-block whose for_each expression evaluates
to a non-null iterable collection and whose condition guard is absent or
evaluates to true, the expander appends exactly one generated block per
key/value pair of the collection, in the collection's natural iteration
order, each expansion performed with the loop variable bound to the
two-field `{key, value}` structure; it stops early and propagates the
error if any single expansion fails; and if the condition guard
evaluates to false, zero blocks are appended and no error is returned. -/
theorem c1_dynamic_expansion
    (F : Nat) (target : OutBody) (ctx : EvalCtx) (db : SrcBlock)
    (da : DynAttrs) (cb : Option SrcBlock) (gt : String)
    (hval : dynValidationErrs db = [])
    (hda : (getDynamicBlockAttrs db).1 = da)
    (hcb : (getContentBlock db.body.blocks).1 = cb)
    (hgt : db.labels.headD "" = gt) :
    (∀ ca cv, da.condition = some ca → evalE ctx ca.expr = .ok cv →
      cv.typeOf = .boolT → cv.isTrue = false →
      appendDynamicBlocks (F+1) target db ctx = some (ctx, .ok target)) ∧
    (∀ fa v iter, da.foreach = some fa → evalE ctx fa.expr = .ok v →
      v.canIterate = true → v.isNull = false →
      (da.condition = none ∨ ∃ ca, da.condition = some ca ∧ evalE ctx ca.expr = .ok (.bool true)) →
      ((da.iterator = none ∧ iter = gt) ∨
        ∃ ia, da.iterator = some ia ∧ absTraversal ia.expr = some [iter]) →
      (∀ c2 b2, appendDynamicBlocks (F+1) target db ctx = some (c2, .ok b2) →
        ∃ bs : List OutBlock, b2.attrs = target.attrs ∧ b2.blocks = target.blocks ++ bs ∧
          bs.length = v.elements.length ∧
          ∀ i, i < v.elements.length →
            ∃ (g : Nat) (c1 cx : EvalCtx), expandDynBlock g (c1.setNamespace iter
                [("key", (v.elements.getD i dV).1), ("value", (v.elements.getD i dV).2)])
                gt da cb = some (cx, .ok (bs.getD i dB))) ∧
      (∀ c2 err, appendDynamicBlocks (F+1) target db ctx = some (c2, .error err) →
        ∃ i, i < v.elements.length ∧
          (∃ (g : Nat) (c1 cx : EvalCtx), expandDynBlock g (c1.setNamespace iter
              [("key", (v.elements.getD i dV).1), ("value", (v.elements.getD i dV).2)])
              gt da cb = some (cx, .error err)) ∧
          ∀ j, j < i → ∃ (g : Nat) (c1 cx : EvalCtx) (b : OutBlock), expandDynBlock g
              (c1.setNamespace iter
                [("key", (v.elements.getD j dV).1), ("value", (v.elements.getD j dV).2)])
              gt da cb = some (cx, .ok b))) := by
  constructor
  · intro ca cv hca hcv htyp htrue
    have hprep : prepareDynamic db ctx = DynPrep.suppressed := by
      unfold prepareDynamic
      simp only [hval, ne_eq, not_true_eq_false, if_false, hda, hcb, hgt, hca, hcv, htyp,
        htrue]
      simp
    unfold appendDynamicBlocks
    rw [hprep]
  · intro fa v iter hfa hev hit hnn hcond hiter
    have hprep : prepareDynamic db ctx = DynPrep.iterate gt iter v.elements da cb := by
      have hfe : prepareForeach ctx da cb gt = DynPrep.iterate gt iter v.elements da cb := by
        unfold prepareForeach
        simp only [hfa, hev, hit, hnn, Bool.not_true, Bool.false_eq_true, if_false]
        rcases hiter with ⟨hnone, rfl⟩ | ⟨ia, hia, htrav⟩
        · simp [hnone]
        · simp [hia, htrav]
      unfold prepareDynamic
      simp only [hval, ne_eq, not_true_eq_false, if_false, hda, hcb, hgt]
      rcases hcond with hnone | ⟨ca, hca, hcv⟩
      · simp only [hnone]
        exact hfe
      · simp only [hca, hcv]
        simpa [Value.typeOf, Value.isTrue] using hfe
    constructor
    · intro c2 b2 h
      rw [appendDynamicBlocks_iterate hprep] at h
      cases hD : dynLoop F gt iter da cb target ctx v.elements with
      | none => rw [hD] at h; simp at h
      | some pr =>
        rw [hD] at h
        obtain ⟨cx, res⟩ := pr
        cases res with
        | error e => simp at h
        | ok bb =>
          obtain ⟨h1, h2⟩ : cx.deleteNamespace iter = c2 ∧ bb = b2 := by simpa using h
          rw [← h2]
          exact dynLoop_ok_spec v.elements F target ctx cx bb hD
    · intro c2 err h
      rw [appendDynamicBlocks_iterate hprep] at h
      cases hD : dynLoop F gt iter da cb target ctx v.elements with
      | none => rw [hD] at h; simp at h
      | some pr =>
        rw [hD] at h
        obtain ⟨cx, res⟩ := pr
        cases res with
        | ok bb => simp at h
        | error e =>
          obtain ⟨h1, h2⟩ : cx.deleteNamespace iter = c2 ∧ e = err := by simpa using h
          rw [← h2]
          obtain ⟨i, hi, ⟨g, c1, hfail⟩, hpre⟩ :=
            dynLoop_error_spec v.elements F target ctx cx e hD
          exact ⟨i, hi, ⟨g, c1, cx, hfail⟩, hpre⟩

/-- Empty evaluation context fixture. -/
def c1ctx : EvalCtx := ⟨[], []⟩

/-- Content block fixture: `content { value = mytype.value }`. -/
def c1content : SrcBlock :=
  .mk "content" [] 20 21 (.mk [⟨"value", .nsAccess "mytype" "value" 22, 23⟩] [] 24)

/-- The collection fixture `{ b = 2, a = 1 }`. -/
def c1v : Value := .obj [("b", .num 2), ("a", .num 1)]

/-- The `for_each` attribute fixture. -/
def c1fa : SrcAttribute := ⟨"for_each", .lit c1v 10, 32⟩

/-- The control attributes of the fixture meta-block. -/
def c1da : DynAttrs := ⟨none, none, some c1fa, none, none⟩

/-- Meta-block fixture: `tm_dynamic "mytype" { for_each = {b=2, a=1}
content { value = mytype.value } }`. -/
def c1db : SrcBlock := .mk "tm_dynamic" ["mytype"] 30 31 (.mk [c1fa] [c1content] 33)

/-- The expansion result of the fixture: two `mytype` blocks, in key
order, with the loop-variable reference resolved per iteration. -/
def c1out : OutBody :=
  .mk [] [.mk "mytype" [] (.mk [("value", .lit (.num 1) 22)] []),
          .mk "mytype" [] (.mk [("value", .lit (.num 2) 22)] [])]

/-- Witness for C1: the fixture expansion of a two-element collection
appends exactly two blocks, each produced under its own iteration
binding. -/
theorem c1_dynamic_expansion_app :
    ∃ bs : List OutBlock, c1out.attrs = emptyOutBody.attrs ∧
      c1out.blocks = emptyOutBody.blocks ++ bs ∧ bs.length = c1v.elements.length ∧
      ∀ i, i < c1v.elements.length →
        ∃ (g : Nat) (c1 cx : EvalCtx), expandDynBlock g (c1.setNamespace "mytype"
            [("key", (c1v.elements.getD i dV).1), ("value", (c1v.elements.getD i dV).2)])
            "mytype" c1da (some c1content) = some (cx, .ok (bs.getD i dB)) :=
  ((c1_dynamic_expansion 8 emptyOutBody c1ctx c1db c1da (some c1content) "mytype"
      rfl rfl rfl rfl).2 c1fa c1v "mytype" rfl rfl rfl rfl (.inl rfl) (.inl ⟨rfl, rfl⟩)).1
    c1ctx c1out rfl

/-- C6: for every iterating tm_dynamic expansion, the loop-variable
namespace bound during the loop is removed from the evaluation context
when the expansion returns — both when all expansions succeed and when
one fails with an error — so evaluation performed after the expansion
never observes a binding under the loop-variable name. -/
theorem c6_loop_namespace_removed
    (F : Nat) (target : OutBody) (ctx : EvalCtx) (db : SrcBlock)
    (gt iter : String) (elems : List (Value × Value)) (da : DynAttrs) (cb : Option SrcBlock)
    (hprep : prepareDynamic db ctx = .iterate gt iter elems da cb)
    (c2 : EvalCtx) (res : Except GoErr OutBody)
    (h : appendDynamicBlocks (F+1) target db ctx = some (c2, res)) :
    c2.lookupNs iter = none := by
  rw [appendDynamicBlocks_iterate hprep] at h
  cases hD : dynLoop F gt iter da cb target ctx elems with
  | none => rw [hD] at h; simp at h
  | some pr =>
    rw [hD] at h
    obtain ⟨cx, r⟩ := pr
    obtain ⟨h1, h2⟩ : cx.deleteNamespace iter = c2 ∧ r = res := by simpa using h
    rw [← h1]
    exact lookupNs_deleteNamespace cx iter

/-- Witness for C6 at the C1 fixture run. -/
theorem c6_loop_namespace_removed_app : c1ctx.lookupNs "mytype" = none :=
  c6_loop_namespace_removed 8 emptyOutBody c1ctx c1db "mytype" "mytype" c1v.elements c1da
    (some c1content) rfl c1ctx (.ok c1out) rfl

/-- C7: for a tm_dynamic meta-block with no for_each attribute, defining
an iterator attribute is a fatal error of the invalid tm_dynamic.iterator
kind reported at the iterator attribute; when the iterator is also
absent, exactly one expansion is performed with the block's own
non-iterating evaluation context (no loop-variable binding is created). -/
theorem c7_no_foreach
    (F : Nat) (target : OutBody) (ctx : EvalCtx) (db : SrcBlock)
    (da : DynAttrs) (cb : Option SrcBlock) (gt : String)
    (hval : dynValidationErrs db = [])
    (hda : (getDynamicBlockAttrs db).1 = da)
    (hcb : (getContentBlock db.body.blocks).1 = cb)
    (hgt : db.labels.headD "" = gt)
    (hcond : da.condition = none)
    (hfe : da.foreach = none) :
    (∀ ia, da.iterator = some ia →
      appendDynamicBlocks (F+1) target db ctx =
        some (ctx, .error [⟨some .invalidDynamicIterator, some ia.rng⟩])) ∧
    (da.iterator = none →
      appendDynamicBlocks (F+1) target db ctx = appendDynamicBlock F target ctx gt da cb) := by
  constructor
  · intro ia hia
    have hprep : prepareDynamic db ctx =
        .failed [⟨some .invalidDynamicIterator, some ia.rng⟩] := by
      unfold prepareDynamic
      simp only [hval, ne_eq, not_true_eq_false, if_false, hda, hcb, hgt, hcond]
      unfold prepareForeach
      simp only [hfe]
      unfold prepareNull
      simp only [hia]
    unfold appendDynamicBlocks
    rw [hprep]
  · intro hia
    have hprep : prepareDynamic db ctx = .single gt da cb := by
      unfold prepareDynamic
      simp only [hval, ne_eq, not_true_eq_false, if_false, hda, hcb, hgt, hcond]
      unfold prepareForeach
      simp only [hfe]
      unfold prepareNull
      simp only [hia]
    unfold appendDynamicBlocks
    rw [hprep]

/-- Empty content block fixture for the C7 witness. -/
def c7content : SrcBlock := .mk "content" [] 20 21 (.mk [] [] 24)

/-- Iterator attribute fixture for the C7 witness. -/
def c7ia : SrcAttribute := ⟨"iterator", .varRef "it" 40, 41⟩

/-- Control attributes of the C7 fixture: iterator without for_each. -/
def c7da : DynAttrs := ⟨none, some c7ia, none, none, none⟩

/-- Meta-block fixture with an iterator but no for_each. -/
def c7db : SrcBlock := .mk "tm_dynamic" ["t"] 30 31 (.mk [c7ia] [c7content] 33)

/-- Witness for C7: defining an iterator without for_each fails with the
invalid-iterator kind at the iterator attribute's range. -/
theorem c7_no_foreach_app :
    appendDynamicBlocks 5 emptyOutBody c7db c1ctx =
      some (c1ctx, .error [⟨some .invalidDynamicIterator, some 41⟩]) :=
  (c7_no_foreach 4 emptyOutBody c1ctx c7db c7da (some c7content) "t"
    rfl rfl rfl rfl rfl rfl).1 c7ia rfl

/-- Content block fixture with one literal attribute. -/
def c10content : SrcBlock := .mk "content" [] 20 21 (.mk [⟨"a", .lit (.str "x") 22, 23⟩] [] 24)

/-- A for_each attribute that evaluates to a null value of map type. -/
def c10fe : SrcAttribute := ⟨"for_each", .lit (.nullOf .mapT) 50, 51⟩

/-- Meta-block with a null-map for_each and an iterator. -/
def c10dbIter : SrcBlock :=
  .mk "tm_dynamic" ["mytype"] 30 31 (.mk [c10fe, ⟨"iterator", .varRef "it" 52, 53⟩] [c10content] 33)

/-- Meta-block with a null-map for_each and no iterator. -/
def c10dbNull : SrcBlock := .mk "tm_dynamic" ["mytype"] 30 31 (.mk [c10fe] [c10content] 33)

/-- The same meta-block with the for_each attribute omitted entirely. -/
def c10dbNoFe : SrcBlock := .mk "tm_dynamic" ["mytype"] 30 31 (.mk [] [c10content] 33)

/-- C10: a for_each expression that evaluates without error to a null
value of an iterable type (a null map) takes the same path as an omitted
for_each: a single non-iterating expansion with no loop-variable
binding; and if an iterator attribute is also defined, the failure is
the invalid-iterator kind (iterator defined while for_each is omitted)
rather than a non-iterable-collection parse error. -/
theorem c10_null_iterable_foreach :
    appendDynamicBlocks 5 emptyOutBody c10dbIter c1ctx =
      some (c1ctx, .error [⟨some .invalidDynamicIterator, some 53⟩]) ∧
    appendDynamicBlocks 5 emptyOutBody c10dbNull c1ctx =
      some (c1ctx, .ok (.mk [] [.mk "mytype" [] (.mk [("a", .lit (.str "x") 22)] [])])) ∧
    appendDynamicBlocks 5 emptyOutBody c10dbNull c1ctx =
      appendDynamicBlocks 5 emptyOutBody c10dbNoFe c1ctx :=
  ⟨rfl, rfl, rfl⟩

/-- C4: when both the attributes map and a content sub-block are present
and some top-level attribute of the content block has a name already set
from attributes, the expansion fails with the conflicting-fields error
kind at the colliding attribute's range, regardless of the two attribute
values. -/
theorem c4_attributes_content_conflict
    (f : Nat) (dest : OutBody) (ctx : EvalCtx) (gt : String) (da : DynAttrs)
    (cb : SrcBlock) (labels : List String) (tmAttrs : List TmAttribute) (nb : OutBody)
    (a : SrcAttribute)
    (hl : evalDynLabels ctx da.labels = .ok labels)
    (ha : buildTmAttrs ctx da.attributes = .ok tmAttrs)
    (hs : setBodyAttributes emptyOutBody tmAttrs = .ok nb)
    (hfind : cb.body.attributes.find? (fun x => (tmAttrs.map (·.name)).contains x.name)
      = some a) :
    appendDynamicBlock (f+2) dest ctx gt da (some cb) =
      some (ctx, .error [⟨some .dynamicAttrsConflict, some a.rng⟩]) := by
  unfold appendDynamicBlock
  unfold expandDynBlock
  simp only [hl, ha, hs, hfind]

/-- The attributes map fixture `{ value = 9 }` for the C4 witness. -/
def c4attrs : SrcAttribute := ⟨"attributes", .lit (.obj [("value", .num 9)]) 60, 61⟩

/-- Control attributes of the C4 fixture. -/
def c4da : DynAttrs := ⟨some c4attrs, none, none, none, none⟩

/-- Witness for C4: `attributes` sets `value` and the content block also
sets `value` (to a different expression); the expansion fails with the
conflict kind at the content attribute's range. -/
theorem c4_attributes_content_conflict_app :
    appendDynamicBlock 5 emptyOutBody c1ctx "mytype" c4da (some c1content) =
      some (c1ctx, .error [⟨some .dynamicAttrsConflict, some 23⟩]) :=
  c4_attributes_content_conflict 3 emptyOutBody c1ctx "mytype" c4da c1content []
    [⟨"value", .lit (.num 9) 60, 60⟩] (.mk [("value", .lit (.num 9) 60)] [])
    ⟨"value", .nsAccess "mytype" "value" 22, 23⟩ rfl rfl rfl rfl

/-- The attribute names recognized on a tm_dynamic meta-block. -/
def dynSupportedAttrs : List String := ["attributes", "for_each", "labels", "iterator", "condition"]

/-- The error contributed by one meta-block attribute: none when the
name is recognized, an `ErrParsing` item at the expression range
otherwise. -/
def unsupportedErr (a : SrcAttribute) : Option ErrItem :=
  if a.name ∈ dynSupportedAttrs then none else some ⟨some .parsing, some a.expr.rng⟩

/-- The classification fold accumulates exactly one error per
unsupported attribute name, in order, regardless of the struct state. -/
theorem dynAttrStep_foldl_errs : ∀ (l : List SrcAttribute) (d : DynAttrs) (acc : GoErr),
    (l.foldl dynAttrStep (d, acc)).2 = acc ++ l.filterMap unsupportedErr := by
  intro l
  induction l with
  | nil => intro d acc; simp
  | cons a t ih =>
    intro d acc
    simp only [List.foldl_cons, List.filterMap_cons]
    by_cases h1 : a.name = "attributes"
    · simp [dynAttrStep, unsupportedErr, dynSupportedAttrs, h1, ih]
    · by_cases h2 : a.name = "for_each"
      · simp [dynAttrStep, unsupportedErr, dynSupportedAttrs, h1, h2, ih]
      · by_cases h3 : a.name = "labels"
        · simp [dynAttrStep, unsupportedErr, dynSupportedAttrs, h1, h2, h3, ih]
        · by_cases h4 : a.name = "iterator"
          · simp [dynAttrStep, unsupportedErr, dynSupportedAttrs, h1, h2, h3, h4, ih]
          · by_cases h5 : a.name = "condition"
            · simp [dynAttrStep, unsupportedErr, dynSupportedAttrs, h1, h2, h3, h4, h5, ih]
            · simp [dynAttrStep, unsupportedErr, dynSupportedAttrs, h1, h2, h3, h4, h5, ih]

/-- The error part of `getDynamicBlockAttrs` lists exactly the
unsupported attribute names, in order. -/
theorem getDynamicBlockAttrs_errs (db : SrcBlock) :
    (getDynamicBlockAttrs db).2 = db.body.attributes.filterMap unsupportedErr := by
  unfold getDynamicBlockAttrs
  simpa using dynAttrStep_foldl_errs db.body.attributes DynAttrs.empty []

/-- The errors of the content-block scan, with `found` recording whether
a content block was already seen: one error per non-content block, one
per duplicate content block. -/
def contentScanErrs (found : Bool) : List SrcBlock → GoErr
  | [] => []
  | b :: rest =>
    if b.btype ≠ "content" then ⟨some .parsing, some b.typeRng⟩ :: contentScanErrs found rest
    else if found then ⟨some .parsing, some b.typeRng⟩ :: contentScanErrs found rest
    else contentScanErrs true rest

/-- The accumulator-passing scan produces exactly `contentScanErrs`. -/
theorem getContentBlockAux_errs : ∀ (l : List SrcBlock) (found : Option SrcBlock) (errs : GoErr),
    (getContentBlockAux found errs l).2 = errs ++ contentScanErrs found.isSome l := by
  intro l
  induction l with
  | nil => intro found errs; simp [getContentBlockAux, contentScanErrs]
  | cons b t ih =>
    intro found errs
    by_cases hb : b.btype = "content"
    · cases found with
      | none => simp [getContentBlockAux, contentScanErrs, hb, ih]
      | some c => simp [getContentBlockAux, contentScanErrs, hb, ih]
    · simp [getContentBlockAux, contentScanErrs, hb, ih]

/-- The error part of `getContentBlock` is the full scan error list. -/
theorem getContentBlock_errs (l : List SrcBlock) :
    (getContentBlock l).2 = contentScanErrs false l := by
  have h := getContentBlockAux_errs l none []
  simp only [Option.isSome_none, List.nil_append] at h
  rcases hp : getContentBlockAux none [] l with ⟨cb, errs⟩
  have h2 : errs = contentScanErrs false l := by rw [hp] at h; exact h
  unfold getContentBlock
  rw [hp]
  dsimp only
  by_cases he : errs = []
  · subst he
    simpa using h2
  · simp only [if_neg he]
    exact h2

/-- Every non-content nested block contributes its error to the scan. -/
theorem contentScanErrs_mem_noncontent :
    ∀ (l : List SrcBlock) (found : Bool) (b : SrcBlock), b ∈ l → b.btype ≠ "content" →
    (⟨some .parsing, some b.typeRng⟩ : ErrItem) ∈ contentScanErrs found l := by
  intro l
  induction l with
  | nil => intro found b hb; simp at hb
  | cons c t ih =>
    intro found b hb hbt
    rcases List.mem_cons.1 hb with rfl | hmem
    · simp [contentScanErrs, hbt]
    · by_cases hc : c.btype = "content"
      · cases found with
        | false => simpa [contentScanErrs, hc] using ih true b hmem hbt
        | true =>
          simp only [contentScanErrs, hc, ne_eq, not_true_eq_false, if_false, if_true,
            List.mem_cons]
          exact Or.inr (ih true b hmem hbt)
      · simp only [contentScanErrs, hc, ne_eq, not_false_eq_true, if_true, List.mem_cons]
        exact Or.inr (ih found b hmem hbt)

/-- Once a content block was seen, any further content block contributes
an error to the scan. -/
theorem contentScanErrs_mem_dup_found :
    ∀ (l : List SrcBlock), (∃ b ∈ l, b.btype = "content") →
    ∃ b : SrcBlock, b.btype = "content" ∧
      (⟨some .parsing, some b.typeRng⟩ : ErrItem) ∈ contentScanErrs true l := by
  intro l
  induction l with
  | nil => rintro ⟨b, hb, _⟩; simp at hb
  | cons c t ih =>
    rintro ⟨b, hb, hbt⟩
    rcases List.mem_cons.1 hb with rfl | hmem
    · exact ⟨b, hbt, by simp [contentScanErrs, hbt]⟩
    · by_cases hc : c.btype = "content"
      · obtain ⟨b2, hb2t, hb2m⟩ := ih ⟨b, hmem, hbt⟩
        refine ⟨b2, hb2t, ?_⟩
        simp only [contentScanErrs, hc, ne_eq, not_true_eq_false, if_false, if_true,
          List.mem_cons]
        exact Or.inr hb2m
      · obtain ⟨b2, hb2t, hb2m⟩ := ih ⟨b, hmem, hbt⟩
        refine ⟨b2, hb2t, ?_⟩
        simp only [contentScanErrs, hc, ne_eq, not_false_eq_true, if_true, List.mem_cons]
        exact Or.inr hb2m

/-- A duplicated content block contributes an error to the scan. -/
theorem contentScanErrs_mem_dup :
    ∀ (l : List SrcBlock), 2 ≤ (l.filter (fun b => b.btype = "content")).length →
    ∃ b : SrcBlock, b.btype = "content" ∧
      (⟨some .parsing, some b.typeRng⟩ : ErrItem) ∈ contentScanErrs false l := by
  intro l
  induction l with
  | nil => intro h; simp at h
  | cons c t ih =>
    intro h
    by_cases hc : c.btype = "content"
    · have hrest : ∃ b ∈ t, b.btype = "content" := by
        rw [List.filter_cons_of_pos (by simp [hc])] at h
        simp only [List.length_cons] at h
        have hlen : 0 < (t.filter (fun b => b.btype = "content")).length := by omega
        obtain ⟨b, hbm⟩ := List.exists_mem_of_length_pos hlen
        have hmf := List.mem_filter.1 hbm
        exact ⟨b, hmf.1, by simpa using hmf.2⟩
      obtain ⟨b2, hb2t, hb2m⟩ := contentScanErrs_mem_dup_found t hrest
      refine ⟨b2, hb2t, ?_⟩
      simp only [contentScanErrs, hc, ne_eq, not_true_eq_false, if_false, if_true]
      exact hb2m
    · have h2 : 2 ≤ (t.filter (fun b => b.btype = "content")).length := by
        rw [List.filter_cons_of_neg (by simp [hc])] at h
        exact h
      obtain ⟨b2, hb2t, hb2m⟩ := ih h2
      refine ⟨b2, hb2t, ?_⟩
      simp only [contentScanErrs, hc, ne_eq, not_false_eq_true, if_true, List.mem_cons]
      exact Or.inr hb2m

/-- C8: the structural validation errors of a tm_dynamic meta-block — a
label count different from one, an error per unsupported attribute name
(each listed), an error per non-content nested block, an error for a
duplicated content block, and the absence of both attributes and content
— are accumulated and reported together as one aggregated error, rather
than the validation stopping at the first violation. -/
theorem c8_validation_accumulates
    (F : Nat) (target : OutBody) (ctx : EvalCtx) (db : SrcBlock)
    (hviol : dynValidationErrs db ≠ []) :
    appendDynamicBlocks (F+1) target db ctx = some (ctx, .error (dynValidationErrs db)) ∧
    (db.labels.length ≠ 1 →
      (⟨some .parsing, some db.labelRng⟩ : ErrItem) ∈ dynValidationErrs db) ∧
    (∀ a ∈ db.body.attributes, a.name ∉ dynSupportedAttrs →
      (⟨some .parsing, some a.expr.rng⟩ : ErrItem) ∈ dynValidationErrs db) ∧
    (∀ b ∈ db.body.blocks, b.btype ≠ "content" →
      (⟨some .parsing, some b.typeRng⟩ : ErrItem) ∈ dynValidationErrs db) ∧
    (2 ≤ (db.body.blocks.filter (fun b => b.btype = "content")).length →
      ∃ b : SrcBlock, b.btype = "content" ∧
        (⟨some .parsing, some b.typeRng⟩ : ErrItem) ∈ dynValidationErrs db) ∧
    ((getContentBlock db.body.blocks).1 = none →
      (getDynamicBlockAttrs db).1.attributes = none →
      (⟨some .parsing, some db.body.rng⟩ : ErrItem) ∈ dynValidationErrs db) := by
  refine ⟨?_, ?_, ?_, ?_, ?_, ?_⟩
  · unfold appendDynamicBlocks prepareDynamic
    rw [if_pos hviol]
  · intro hl
    unfold dynValidationErrs
    rw [if_pos hl]
    simp
  · intro a ha hname
    unfold dynValidationErrs
    have hmem : (⟨some .parsing, some a.expr.rng⟩ : ErrItem) ∈ (getDynamicBlockAttrs db).2 := by
      rw [getDynamicBlockAttrs_errs]
      exact List.mem_filterMap.2 ⟨a, ha, by simp [unsupportedErr, hname]⟩
    simp only [List.mem_append]
    exact Or.inl (Or.inl (Or.inr hmem))
  · intro b hb hbt
    unfold dynValidationErrs
    have hmem : (⟨some .parsing, some b.typeRng⟩ : ErrItem) ∈ (getContentBlock db.body.blocks).2 := by
      rw [getContentBlock_errs]
      exact contentScanErrs_mem_noncontent db.body.blocks false b hb hbt
    simp only [List.mem_append]
    exact Or.inl (Or.inr hmem)
  · intro hdup
    obtain ⟨b, hbt, hbm⟩ := contentScanErrs_mem_dup db.body.blocks hdup
    refine ⟨b, hbt, ?_⟩
    unfold dynValidationErrs
    have hmem : (⟨some .parsing, some b.typeRng⟩ : ErrItem) ∈ (getContentBlock db.body.blocks).2 := by
      rw [getContentBlock_errs]; exact hbm
    simp only [List.mem_append]
    exact Or.inl (Or.inr hmem)
  · intro hcb hattrs
    unfold dynValidationErrs
    rw [hcb, hattrs]
    simp

/-- Fixture with every structural violation at once: two labels, an
unsupported attribute, a duplicated content block (and, per the Go
behavior, the resulting nil content block also triggers the
missing-content-or-attributes error). -/
def c8db : SrcBlock :=
  .mk "tm_dynamic" ["a", "b"] 30 31
    (.mk [⟨"bogus", .lit .nilV 70, 71⟩] [c7content, c7content] 33)

/-- Witness for C8: the fixture's violations are reported together as
one aggregated error, and each violation is listed in it. -/
theorem c8_validation_accumulates_app :
    appendDynamicBlocks 5 emptyOutBody c8db c1ctx =
      some (c1ctx, .error (dynValidationErrs c8db)) ∧
    (⟨some .parsing, some 30⟩ : ErrItem) ∈ dynValidationErrs c8db ∧
    (⟨some .parsing, some 70⟩ : ErrItem) ∈ dynValidationErrs c8db ∧
    (∃ b : SrcBlock, b.btype = "content" ∧
      (⟨some .parsing, some b.typeRng⟩ : ErrItem) ∈ dynValidationErrs c8db) :=
  have h := c8_validation_accumulates 4 emptyOutBody c1ctx c8db (by decide)
  ⟨h.1, h.2.1 (by decide), h.2.2.1 ⟨"bogus", .lit .nilV 70, 71⟩
    (List.mem_cons_self (⟨"bogus", .lit .nilV 70, 71⟩ : SrcAttribute) []) (by decide),
    h.2.2.2.2.1 (by decide)⟩

/-- C2: for a generation block whose condition attribute evaluates to
false, Load emits an artifact with condition false and an empty body and
no asserts, and continues to the next block; the block's content subtree
is never evaluated (the conclusion holds for every content body,
including invalid ones, and even with zero fuel, under which any content
evaluation would be visible); an absent condition counts as true
(replacing a condition that evaluates to true by an absent one does not
change the result); and a condition evaluating to a non-boolean value is
a fatal error of the invalid-condition-type kind that aborts the run. -/
theorem c2_condition_gate
    (fuel : Nat) (blk : GenHCLBlock) (sd : String) (evalctx ctx2 : EvalCtx) (cs : CommentStyle)
    (hm : matchedAnyStackFilter blk.stackFilters sd = true)
    (hl : letsLoad (evalctx.setFunction "tm_vendor") blk.lets = .ok ctx2) :
    (∀ ce cv, blk.condition = some ce → evalE ctx2 ce = .ok cv → cv.typeOf = .boolT →
      cv.isTrue = false →
      loadBlock fuel blk sd evalctx cs =
        some (.ok (some ⟨cs, blk.label, blk.range, emptyOutBody, false, []⟩)) ∧
      ∀ rest hs, loadAll fuel sd evalctx cs rest = some (.ok hs) →
        loadAll fuel sd evalctx cs (blk :: rest) =
          some (.ok (⟨cs, blk.label, blk.range, emptyOutBody, false, []⟩ :: hs))) ∧
    (∀ ce cv, blk.condition = some ce → evalE ctx2 ce = .ok cv → cv.typeOf ≠ .boolT →
      loadBlock fuel blk sd evalctx cs = some (.error [⟨some .invalidConditionType, none⟩]) ∧
      ∀ rest, loadAll fuel sd evalctx cs (blk :: rest) =
        some (.error [⟨some .invalidConditionType, none⟩])) ∧
    (∀ te, evalE ctx2 te = .ok (.bool true) →
      loadBlock fuel { blk with condition := some te } sd evalctx cs =
        loadBlock fuel { blk with condition := none } sd evalctx cs) := by
  refine ⟨?_, ?_, ?_⟩
  · intro ce cv hc hce htyp hfalse
    have hblk : loadBlock fuel blk sd evalctx cs =
        some (.ok (some ⟨cs, blk.label, blk.range, emptyOutBody, false, []⟩)) := by
      simp [loadBlock, hm, hl, hc, hce, htyp, hfalse]
    refine ⟨hblk, ?_⟩
    intro rest hs hrest
    simp [loadAll, hblk, hrest]
  · intro ce cv hc hce htyp
    have hblk : loadBlock fuel blk sd evalctx cs =
        some (.error [⟨some .invalidConditionType, none⟩]) := by
      simp [loadBlock, hm, hl, hc, hce, htyp]
    refine ⟨hblk, ?_⟩
    intro rest
    simp [loadAll, hblk]
  · intro te hte
    simp [loadBlock, hm, hl, hte, Value.typeOf, Value.isTrue]

/-- Block fixture for the C2 witness: a false condition over a content
body whose only attribute is a failing expression. -/
def c2blk : GenHCLBlock :=
  { label := "x", dir := "/s", range := 1, stackFilters := [], lets := [],
    condition := some (.lit (.bool false) 2), inherit := none, asserts := [],
    content := .mk [⟨"boom", .failing 3, 4⟩] [] 5, isImplicitBlock := false }

/-- Witness for C2: the fixture block — whose content is deliberately
invalid — yields a condition-false artifact with an empty body, even at
zero fuel (so the content subtree was not walked). -/
theorem c2_condition_gate_app :
    loadBlock 0 c2blk "/s" c1ctx .slash =
      some (.ok (some ⟨.slash, "x", 1, emptyOutBody, false, []⟩)) :=
  ((c2_condition_gate 0 c2blk "/s" c1ctx (c1ctx.setFunction "tm_vendor") .slash rfl rfl).1
    (.lit (.bool false) 2) (.bool false) rfl rfl rfl rfl).1

/-- C3: a block whose inherit attribute evaluates to false and whose
declaring directory differs from the stack directory is silently skipped
by Load — no artifact at all, and the block list processing continues as
if the block were not there; if the block is declared in the stack's own
directory the gate has no effect (the result equals that of the same
block without an inherit attribute); and a non-boolean inherit value is
a fatal error of the invalid-inherit-type kind that aborts the run. -/
theorem c3_inherit_gate
    (fuel : Nat) (blk : GenHCLBlock) (sd : String) (evalctx ctx2 : EvalCtx) (cs : CommentStyle)
    (hm : matchedAnyStackFilter blk.stackFilters sd = true)
    (hl : letsLoad (evalctx.setFunction "tm_vendor") blk.lets = .ok ctx2)
    (hcond : blk.condition = none) :
    (∀ ie, blk.inherit = some ie → evalE ctx2 ie = .ok (.bool false) → blk.dir ≠ sd →
      loadBlock fuel blk sd evalctx cs = some (.ok none) ∧
      ∀ rest, loadAll fuel sd evalctx cs (blk :: rest) = loadAll fuel sd evalctx cs rest) ∧
    (∀ ie, blk.inherit = some ie → evalE ctx2 ie = .ok (.bool false) → blk.dir = sd →
      loadBlock fuel blk sd evalctx cs =
        loadBlock fuel { blk with inherit := none } sd evalctx cs) ∧
    (∀ ie iv, blk.inherit = some ie → evalE ctx2 ie = .ok iv → iv.typeOf ≠ .boolT →
      loadBlock fuel blk sd evalctx cs = some (.error [⟨some .invalidInheritType, none⟩]) ∧
      ∀ rest, loadAll fuel sd evalctx cs (blk :: rest) =
        some (.error [⟨some .invalidInheritType, none⟩])) := by
  refine ⟨?_, ?_, ?_⟩
  · intro ie hie hev hdir
    have hblk : loadBlock fuel blk sd evalctx cs = some (.ok none) := by
      simp [loadBlock, hm, hl, hcond, hie, hev, Value.typeOf, Value.isTrue, hdir]
    refine ⟨hblk, ?_⟩
    intro rest
    simp [loadAll, hblk]
  · intro ie hie hev hdir
    simp [loadBlock, hm, hl, hcond, hie, hev, Value.typeOf, Value.isTrue, hdir]
  · intro ie iv hie hev htyp
    have hblk : loadBlock fuel blk sd evalctx cs =
        some (.error [⟨some .invalidInheritType, none⟩]) := by
      simp [loadBlock, hm, hl, hcond, hie, hev, htyp]
    refine ⟨hblk, ?_⟩
    intro rest
    simp [loadAll, hblk]

/-- Block fixture for the C3 witness: declared in an ancestor directory
with a false inherit attribute. -/
def c3blk : GenHCLBlock :=
  { label := "y", dir := "/", range := 1, stackFilters := [], lets := [],
    condition := none, inherit := some (.lit (.bool false) 2), asserts := [],
    content := .mk [] [] 5, isImplicitBlock := false }

/-- Witness for C3: the ancestor-declared fixture with inherit false is
silently dropped. -/
theorem c3_inherit_gate_app : loadBlock 7 c3blk "/s" c1ctx .slash = some (.ok none) :=
  ((c3_inherit_gate 7 c3blk "/s" c1ctx (c1ctx.setFunction "tm_vendor") .slash rfl rfl rfl).1
    (.lit (.bool false) 2) rfl rfl (by decide)).1

/-- The error component one assert contributes: its evaluation error, or
nothing. -/
def assertErrOf (ctx : EvalCtx) (c : AssertConfig) : GoErr :=
  match evalAssert ctx c with
  | .error e => e
  | .ok _ => []

/-- The assertion loop collects the evaluation errors of every declared
assertion, in order, without short-circuiting. -/
theorem assertsStage_errs (ctx : EvalCtx) :
    ∀ l : List AssertConfig,
    (assertsStage ctx l).2.1 = (l.map (assertErrOf ctx)).flatten := by
  intro l
  induction l with
  | nil => simp [assertsStage]
  | cons c t ih =>
    cases hc : evalAssert ctx c with
    | error e => simp [assertsStage, hc, assertErrOf, ih]
    | ok a => simp [assertsStage, hc, assertErrOf, ih]

/-- The assertion loop evaluates every declared assertion; an errored
slot keeps the zero value. -/
theorem assertsStage_asserts (ctx : EvalCtx) :
    ∀ l : List AssertConfig,
    (assertsStage ctx l).1 = l.map (fun c =>
      match evalAssert ctx c with
      | .error _ => defaultAssert
      | .ok a => a) := by
  intro l
  induction l with
  | nil => simp [assertsStage]
  | cons c t ih =>
    cases hc : evalAssert ctx c with
    | error e => simp [assertsStage, hc, ih]
    | ok a => simp [assertsStage, hc, ih]

/-- The failure flag of the assertion loop is set exactly when some
successfully evaluated assertion is non-passing and non-warning. -/
theorem assertsStage_failed (ctx : EvalCtx) :
    ∀ l : List AssertConfig,
    (assertsStage ctx l).2.2 = l.any (fun c =>
      match evalAssert ctx c with
      | .error _ => false
      | .ok a => !a.assertion && !a.warning) := by
  intro l
  induction l with
  | nil => simp [assertsStage]
  | cons c t ih =>
    cases hc : evalAssert ctx c with
    | error e => simp [assertsStage, hc, ih]
    | ok a => simp [assertsStage, hc, ih, Bool.or_comm]

/-- C5: for an applicable block, Load evaluates every declared assertion
without short-circuiting, collecting the evaluation errors and failing
the run with all of them aggregated if any occurred; if all assertions
evaluate successfully and at least one is non-passing and non-warning,
Load emits an artifact with condition true, the evaluated assertions
attached, and an empty body, without evaluating the content (the
conclusion holds for every content body and at zero fuel); and failing
assertions with warning true alone do not suppress content generation. -/
theorem c5_asserts
    (fuel : Nat) (blk : GenHCLBlock) (sd : String) (evalctx ctx2 : EvalCtx) (cs : CommentStyle)
    (asserts : List Assert) (aerrs : GoErr) (failed : Bool)
    (hm : matchedAnyStackFilter blk.stackFilters sd = true)
    (hl : letsLoad (evalctx.setFunction "tm_vendor") blk.lets = .ok ctx2)
    (hcond : blk.condition = none)
    (hinh : blk.inherit = none)
    (hstage : assertsStage ctx2 blk.asserts = (asserts, aerrs, failed)) :
    (aerrs = (blk.asserts.map (assertErrOf ctx2)).flatten) ∧
    (failed = blk.asserts.any (fun c =>
      match evalAssert ctx2 c with
      | .error _ => false
      | .ok a => !a.assertion && !a.warning)) ∧
    (aerrs ≠ [] →
      loadBlock fuel blk sd evalctx cs = some (.error aerrs) ∧
      ∀ rest, loadAll fuel sd evalctx cs (blk :: rest) = some (.error aerrs)) ∧
    (aerrs = [] → failed = true →
      loadBlock fuel blk sd evalctx cs =
        some (.ok (some ⟨cs, blk.label, blk.range, emptyOutBody, true, asserts⟩))) ∧
    (aerrs = [] → failed = false →
      ∀ c4 gen,
        copyBody fuel emptyOutBody blk.content (ctx2.setFunction "tm_hcl_expression")
          = some (c4, .ok gen) →
        loadBlock fuel blk sd evalctx cs =
          some (.ok (some ⟨cs, blk.label, blk.range, gen, true, asserts⟩))) := by
  refine ⟨?_, ?_, ?_, ?_, ?_⟩
  · have h := assertsStage_errs ctx2 blk.asserts
    rw [hstage] at h
    exact h
  · have h := assertsStage_failed ctx2 blk.asserts
    rw [hstage] at h
    exact h
  · intro hne
    have hblk : loadBlock fuel blk sd evalctx cs = some (.error aerrs) := by
      simp [loadBlock, hm, hl, hcond, hinh, hstage, hne]
    refine ⟨hblk, ?_⟩
    intro rest
    simp [loadAll, hblk]
  · intro hae hf
    subst hae; subst hf
    simp [loadBlock, hm, hl, hcond, hinh, hstage]
  · intro hae hf c4 gen hcopy
    subst hae; subst hf
    simp [loadBlock, hm, hl, hcond, hinh, hstage, hcopy]

/-- Block fixture for the C5 witness: one failing non-warning assertion
and one failing warning assertion, over invalid content. -/
def c5blk : GenHCLBlock :=
  { label := "z", dir := "/s", range := 1, stackFilters := [], lets := [],
    condition := none, inherit := none,
    asserts := [⟨.lit (.bool false) 1, .lit (.str "m") 2, none⟩,
                ⟨.lit (.bool false) 1, .lit (.str "w") 2, some (.lit (.bool true) 3)⟩],
    content := .mk [⟨"boom", .failing 3, 4⟩] [] 5, isImplicitBlock := false }

/-- Witness for C5: the fixture's failed non-warning assertion yields a
condition-true artifact with the evaluated assertions attached and an
empty body, at zero fuel (content not walked). -/
theorem c5_asserts_app :
    loadBlock 0 c5blk "/s" c1ctx .slash =
      some (.ok (some ⟨.slash, "z", 1, emptyOutBody, true,
        [⟨false, false, "m"⟩, ⟨false, true, "w"⟩]⟩)) :=
  (c5_asserts 0 c5blk "/s" c1ctx (c1ctx.setFunction "tm_vendor") .slash
    [⟨false, false, "m"⟩, ⟨false, true, "w"⟩] [] true rfl rfl rfl rfl rfl).2.2.2.1 rfl rfl

/-- One glob-set constraint passes exactly when the set is nil or has at
least one matching glob. -/
theorem globSetOk_iff (og : Option (List Glob)) (d : String) :
    globSetOk og d = true ↔ ∀ gs, og = some gs → ∃ g ∈ gs, g.matches d = true := by
  cases og with
  | none => simp [globSetOk]
  | some gs => simp [globSetOk, matchAnyGlob, List.any_eq_true]

/-- C9: a block with zero scope filters matches every stack path; a
block with one or more filters matches exactly when at least one filter
matches, a single filter matching only if each of its non-nil glob-sets
(project paths and repository paths) has at least one glob matching the
stack path; and a non-match is never an error — Load emits a
non-applicable artifact and goes on. -/
theorem c9_filter_match
    (fuel : Nat) (blk : GenHCLBlock) (sd : String) (evalctx : EvalCtx) (cs : CommentStyle)
    (fs : List StackFilter) (d : String) :
    (fs = [] → matchedAnyStackFilter fs d = true) ∧
    (fs ≠ [] → (matchedAnyStackFilter fs d = true ↔ ∃ f ∈ fs,
      (∀ gs, f.projectPaths = some gs → ∃ g ∈ gs, g.matches d = true) ∧
      (∀ gs, f.repositoryPaths = some gs → ∃ g ∈ gs, g.matches d = true))) ∧
    (matchedAnyStackFilter blk.stackFilters sd = false →
      loadBlock fuel blk sd evalctx cs =
        some (.ok (some ⟨cs, blk.label, blk.range, emptyOutBody, false, []⟩))) := by
  refine ⟨?_, ?_, ?_⟩
  · intro h
    simp [matchedAnyStackFilter, h]
  · intro hne
    have hie : fs.isEmpty = false := by
      cases fs with
      | nil => exact absurd rfl hne
      | cons a t => rfl
    simp [matchedAnyStackFilter, hie, List.any_eq_true, filterMatches, Bool.and_eq_true,
      globSetOk_iff]
  · intro h
    simp [loadBlock, h]

/-- Block fixture for the C9 witness: a single filter whose project-path
glob-set matches nothing. -/
def c9blk : GenHCLBlock :=
  { label := "w", dir := "/s", range := 1, stackFilters := [⟨some [.never], none⟩],
    lets := [], condition := none, inherit := none, asserts := [],
    content := .mk [] [] 5, isImplicitBlock := false }

/-- Witness for C9: the non-matching fixture yields a non-applicable
artifact rather than an error. -/
theorem c9_filter_match_app :
    loadBlock 3 c9blk "/s" c1ctx .slash =
      some (.ok (some ⟨.slash, "w", 1, emptyOutBody, false, []⟩)) :=
  (c9_filter_match 3 c9blk "/s" c1ctx .slash [] "/s").2.2 rfl
